import Mathlib

/-!
Verification development for `src/Generators/Search_Cuda.cpp` of the
onnxruntime-genai generators core (CUDA greedy/beam search).

The C++ code is shallowly embedded: buffers become functions `Nat → Int`
(flat, exactly as the C++ indexes its flat allocations), loops become
structural recursions performing pointwise updates, fallible operations
(fatal assertions, contract violations) become `Option`-returning
functions, and the external device kernels (log-softmax, top-k,
additive broadcast) become function parameters constrained only by
their per-row contracts.  `ScoreType` (C++ `float`) is modelled as
`Int` with a designated most-negative representable value
`scoreTypeLowest` standing for `std::numeric_limits<float>::lowest()`.
Classes whose bodies are outside the given source (the `Sequences`
buffer, the `BeamSearchScorer_Cuda`, the pinned-memory allocator) are
modelled from the specification; each such definition carries a doc
comment saying so.
-/

namespace Generators

/-- ScoreType is `float` in the C++; scores are modelled as integers. -/
abbrev ScoreType := Int

/-- The value `std::numeric_limits<float>::lowest()` used by the MinLength
processor, i.e. the most-negative finite `float`, -(2^128 - 2^104). -/
def scoreTypeLowest : ScoreType := -(2 ^ 128 - 2 ^ 104)

/-- SearchParams_Cuda: immutable per-request configuration, as read by
`Search_Cuda` (`params_`).  `input_ids` is the flat prompt buffer of
logical shape `[batch_size, sequence_length]`. -/
structure SearchParams where
  batch_size : Nat
  num_beams : Nat
  sequence_length : Nat
  max_length : Nat
  vocab_size : Nat
  eos_token_id : Nat
  pad_token_id : Int
  input_ids : Nat → Int

/-- SearchParams_Cuda::BatchBeamSize: `batch_size * num_beams`. -/
def SearchParams.BatchBeamSize (p : SearchParams) : Nat :=
  p.batch_size * p.num_beams

/-- Pointwise store into a flat buffer: `buf[idx] = v`. -/
def writeAt (buf : Nat → Int) (idx : Nat) (v : Int) : Nat → Int :=
  fun n => if n = idx then v else buf n

/-- Modelled from the spec: the `Sequences` class (sequence buffer) is
declared in a header outside the given source.  Spec §4.1: it owns the
growing token matrix `[batch*beams, max_length]` (held flat, row `r`
position `j` at flat index `r * max_length + j`, exactly the layout
`Search_Cuda::SetInputSequence` writes), a current length counter and
the fixed capacity `max_length`. -/
structure Sequences where
  buffer : Nat → Int
  batch_beam_size : Nat
  current_length : Nat
  max_length : Nat

/-- Sequences::GetSequenceLength: the current length counter. -/
def Sequences.GetSequenceLength (s : Sequences) : Nat :=
  s.current_length

/-- Inner loop of `Search_Cuda::SetInputSequence` over `j`:
`sequences_0[(batch * num_beams + beam) * max_length + j] =
 input_ids[batch * sequence_length + j]` for `j` below the bound. -/
def setInputLoopJ (p : SearchParams) (buf : Nat → Int) (b k : Nat) : Nat → (Nat → Int)
  | 0 => buf
  | j + 1 =>
    writeAt (setInputLoopJ p buf b k j)
      ((b * p.num_beams + k) * p.max_length + j)
      (p.input_ids (b * p.sequence_length + j))

/-- Middle loop of `Search_Cuda::SetInputSequence` over `beam`. -/
def setInputLoopK (p : SearchParams) (buf : Nat → Int) (b : Nat) : Nat → (Nat → Int)
  | 0 => buf
  | k + 1 => setInputLoopJ p (setInputLoopK p buf b k) b k p.sequence_length

/-- Outer loop of `Search_Cuda::SetInputSequence` over `batch`. -/
def setInputLoopB (p : SearchParams) (buf : Nat → Int) : Nat → (Nat → Int)
  | 0 => buf
  | b + 1 => setInputLoopK p (setInputLoopB p buf b) b p.num_beams

/-- Search_Cuda::SetInputSequence: expands the unexpanded prompt in place
into the sequences buffer, replicating each batch element's prompt
across its `num_beams` rows. -/
def Search_Cuda.SetInputSequence (p : SearchParams) (buf : Nat → Int) : Nat → Int :=
  setInputLoopB p buf p.batch_size

/-- The all-zero buffer produced by `memset(..., 0, ...)`. -/
def zeroBuffer : Nat → Int := fun _ => 0

/-- State owned by the `Search_Cuda` base: its params, the sequence
buffer, the flat next-token score buffer `[batch*beams * vocab_size]`,
and the pinned done flag `done_cpu_`. -/
structure SearchState where
  params : SearchParams
  sequences : Sequences
  next_token_scores : Nat → Int
  done : Bool

/-- Search_Cuda::Search_Cuda: zero-fills `sequences_space_`, calls
`sequences_.Init(sequences_space_, batch_beam_size, sequence_length,
max_length)`, zero-fills the score buffer, allocates the pinned done
flag, and runs `SetInputSequence`.  The done flag's initial value is
modelled from the spec: the pinned-memory allocator
`CudaMallocHostArray` is outside the given source, and the spec (§3,
Done flag) states the flag is reset at construction. -/
def Search_Cuda.construct (p : SearchParams) : SearchState :=
  { params := p
    sequences :=
      { buffer := Search_Cuda.SetInputSequence p zeroBuffer
        batch_beam_size := p.BatchBeamSize
        current_length := p.sequence_length
        max_length := p.max_length }
    next_token_scores := zeroBuffer
    done := false }

/-- Search_Cuda::GetScores(batch_beam_index): the row view
`next_token_scores_.subspan(batch_beam_index * vocab_size, vocab_size)`. -/
def SearchState.GetScores (s : SearchState) (i : Nat) : Nat → Int :=
  fun v => s.next_token_scores (i * s.params.vocab_size + v)

/-- Loop of `Processors_Cuda::MinLength` over the batch-beam rows:
`search.GetScores(i)[eos_token_id] = std::numeric_limits<ScoreType>::lowest()`,
a store at flat index `i * vocab_size + eos_token_id`. -/
def minLengthLoop (p : SearchParams) (scores : Nat → Int) : Nat → (Nat → Int)
  | 0 => scores
  | i + 1 =>
    writeAt (minLengthLoop p scores i)
      (i * p.vocab_size + p.eos_token_id) scoreTypeLowest

/-- Processors_Cuda::MinLength: returns the search state unchanged when
`sequences_.GetSequenceLength() >= min_length`; otherwise overwrites the
`eos_token_id` entry of every one of the `BatchBeamSize()` score rows
with the most-negative representable score. -/
def Processors_Cuda.MinLength (search : SearchState) (min_length : Nat) : SearchState :=
  if search.sequences.GetSequenceLength ≥ min_length then search
  else
    { search with
        next_token_scores :=
          minLengthLoop search.params search.next_token_scores search.params.BatchBeamSize }

/-- The row of logits `Search_Cuda::SetLogits` reads for batch-beam row
`i`: the pointer `logits_data + (input_length - 1) * vocab_size` after
`i` advances by `input_length * vocab_size`, i.e. the slice
`logits[i, input_length - 1, :]` of the flat `[batch*beams,
input_length, vocab_size]` tensor. -/
def lastSlice (p : SearchParams) (input_length : Nat) (logits : Nat → Int) (i : Nat) : Nat → Int :=
  fun u => logits ((input_length - 1) * p.vocab_size + i * (input_length * p.vocab_size) + u)

/-- Loop of `Search_Cuda::SetLogits` over the batch-beam rows: row `i`
of `next_token_scores_` receives the memcpy of `lastSlice i` followed by
the in-place `Launch_log_softmax` on that row, so the row's final
content is `logSoftmax` applied to the copied slice. -/
def setLogitsLoop (p : SearchParams) (logSoftmax : (Nat → Int) → (Nat → Int))
    (input_length : Nat) (logits : Nat → Int) (scores : Nat → Int) : Nat → (Nat → Int)
  | 0 => scores
  | i + 1 => fun n =>
    if i * p.vocab_size ≤ n ∧ n < i * p.vocab_size + p.vocab_size then
      logSoftmax (lastSlice p input_length logits i) (n - i * p.vocab_size)
    else setLogitsLoop p logSoftmax input_length logits scores i n

/-- Search_Cuda::SetLogits: for each of the `BatchBeamSize()` rows,
copies the logits of the last `input_length` position into the score
buffer and normalizes the row with the `Launch_log_softmax` device
kernel (passed in as the per-row function `logSoftmax`, since the
kernel body is an external primitive). -/
def Search_Cuda.SetLogits (s : SearchState) (logSoftmax : (Nat → Int) → (Nat → Int))
    (input_length : Nat) (logits : Nat → Int) : SearchState :=
  { s with
      next_token_scores :=
        setLogitsLoop s.params logSoftmax input_length logits
          s.next_token_scores s.params.BatchBeamSize }

/-- Loop of the host-side append: for each row `i`, store
`next_tokens[i]` at flat position `i * max_length + current_length`. -/
def appendLoop (maxLen : Nat) (next_tokens : Nat → Int) (cur : Nat) (buf : Nat → Int) : Nat → (Nat → Int)
  | 0 => buf
  | i + 1 =>
    writeAt (appendLoop maxLen next_tokens cur buf i)
      (i * maxLen + cur) (next_tokens i)

/-- Modelled from the spec: `Sequences::AppendNextTokenToSequences`
(the host-side `AppendHost`) is outside the given source.  Spec §4.1:
it appends one token per row on the host half and increments the
length by exactly 1; appending beyond `max_length` is a contract
violation (fatal), modelled as `none`. -/
def Sequences.AppendNextTokenToSequences (s : Sequences) (next_tokens : Nat → Int) : Option Sequences :=
  if s.current_length < s.max_length then
    some
      { s with
          buffer := appendLoop s.max_length next_tokens s.current_length s.buffer s.batch_beam_size
          current_length := s.current_length + 1 }
  else none

/-- Modelled from the spec: `Sequences::AfterDeviceAppendedNextToken` is
outside the given source.  Spec §4.1: the device-side ping-pong append
(`AppendDeviceReordered`) has already gathered and appended on the
device; the host-visible effect recorded here is the length counter
increasing by exactly 1, with the same `max_length` contract as the
host append (the reordered device halves are not modelled; rows beyond
the current length are unspecified by the spec). -/
def Sequences.AfterDeviceAppendedNextToken (s : Sequences) : Option Sequences :=
  if s.current_length < s.max_length then
    some { s with current_length := s.current_length + 1 }
  else none

/-- State owned by `GreedySearch_Cuda`: the base state plus the
per-batch selected-token buffer `next_tokens_`. -/
structure GreedyState where
  base : SearchState
  next_tokens : Nat → Int

/-- GreedySearch_Cuda::GreedySearch_Cuda: runs the base constructor and
zero-fills the `batch_size`-entry `next_tokens_` buffer. -/
def GreedySearch_Cuda.construct (p : SearchParams) : GreedyState :=
  { base := Search_Cuda.construct p
    next_tokens := zeroBuffer }

/-- GreedySearch_Cuda::AppendNextTokensToSequences: copies
`next_tokens_` device→host, appends it to the sequences via
`AppendNextTokenToSequences`, and sets the pinned done flag to true
when the resulting `GetSequenceLength()` equals `max_length` (the flag
is not written otherwise). -/
def GreedySearch_Cuda.AppendNextTokensToSequences (g : GreedyState) : Option GreedyState :=
  match g.base.sequences.AppendNextTokenToSequences g.next_tokens with
  | none => none
  | some seq2 =>
    some
      { g with
          base :=
            { g.base with
                sequences := seq2
                done :=
                  if seq2.GetSequenceLength = g.base.params.max_length then true
                  else g.base.done } }

/-- Modelled from the spec: `BeamSearchScorer_Cuda` lives outside the
given source.  Spec §4.4: `IsDone()` triggers the (possibly
asynchronous) stopping-criterion evaluation and `IsDoneLater()` returns
the previously computed result, consumed on the next call.  The state
keeps the previously computed result (`computedDone`) and the current
value of the stopping criterion over the scorer's hypothesis state
(`stoppingCriterion`), which the triggered evaluation will publish. -/
structure BeamScorerState where
  computedDone : Bool
  stoppingCriterion : Bool

/-- Modelled from the spec: BeamSearchScorer_Cuda::IsDone enqueues the
stopping-criterion evaluation; its result becomes the value
`IsDoneLater` returns on a later call. -/
def BeamScorerState.IsDone (s : BeamScorerState) : BeamScorerState :=
  { s with computedDone := s.stoppingCriterion }

/-- Modelled from the spec: BeamSearchScorer_Cuda::IsDoneLater returns
the previously computed stopping-criterion result. -/
def BeamScorerState.IsDoneLater (s : BeamScorerState) : Bool :=
  s.computedDone

/-- State owned by `BeamSearch_Cuda`: the base state plus its scorer. -/
structure BeamState where
  base : SearchState
  scorer : BeamScorerState

/-- BeamSearch_Cuda::BeamSearch_Cuda: runs the base constructor, then
`assert(params_.num_beams > 1)` (if 1, use GreedySearch) — a fatal
assertion modelled as `none` — then creates the scorer and the top-k
buffers.  `scorer0` is the freshly constructed scorer state (its
constructor is outside the given source). -/
def BeamSearch_Cuda.construct (p : SearchParams) (scorer0 : BeamScorerState) : Option BeamState :=
  if p.num_beams > 1 then
    some { base := Search_Cuda.construct p, scorer := scorer0 }
  else none

/-- BeamSearch_Cuda::IsDone: calls `beam_scorer_->IsDone()` (enqueuing
the asynchronous stopping-criterion evaluation, whose published result
is only visible to a later call) and returns
`beam_scorer_->IsDoneLater() || sequences_.GetSequenceLength() ==
params_.max_length`, where `IsDoneLater` reads the previously computed
result held before this call. -/
def BeamSearch_Cuda.IsDone (b : BeamState) : BeamState × Bool :=
  ({ b with scorer := b.scorer.IsDone },
   b.scorer.IsDoneLater
     || decide (b.base.sequences.GetSequenceLength = b.base.params.max_length))

/-- BeamSearch_Cuda::AppendNextTokensToSequences: calls
`sequences_.AfterDeviceAppendedNextToken()`; the commented-out
done-flag update is dead code and is not modelled. -/
def BeamSearch_Cuda.AppendNextTokensToSequences (b : BeamState) : Option BeamState :=
  match b.base.sequences.AfterDeviceAppendedNextToken with
  | none => none
  | some seq2 => some { b with base := { b.base with sequences := seq2 } }

/-- Modelled from the spec: the `LaunchAddProbsKernel` device primitive
(§6, additive broadcast) adds each beam's running cumulative score to
every vocabulary entry of that beam's row: flat entry
`i * vocab_size + v` gains `cum_log_probs[i]`. -/
def LaunchAddProbsKernel (p : SearchParams) (log_probs cum_log_probs : Nat → Int) : Nat → Int :=
  fun n => log_probs n + cum_log_probs (n / p.vocab_size)

/-- BeamSearch_Cuda::NextTokensFromLogits: adds the beam scores to the
next-token scores with `LaunchAddProbsKernel`, then, when
`params_.num_beams <= 32`, runs `cuda::BeamSearchTopK` with
`k = 2 * params_.num_beams` (the kernel is the external top-k
primitive, passed in as `topk` taking `k` and the score buffer and
returning the candidate scores, tokens and source-beam indices);
when `num_beams > 32` the code hits `assert(false)`, modelled as
`none`.  The subsequent `beam_scorer_->Process` consumes the returned
triple (scorer body outside the given source). -/
def BeamSearch_Cuda.NextTokensFromLogits (b : BeamState) (beam_scores : Nat → Int)
    (topk : Nat → (Nat → Int) → (Nat → Int) × (Nat → Int) × (Nat → Int)) :
    Option ((Nat → Int) × (Nat → Int) × (Nat → Int)) :=
  if b.base.params.num_beams ≤ 32 then
    some (topk (2 * b.base.params.num_beams)
      (LaunchAddProbsKernel b.base.params b.base.next_token_scores beam_scores))
  else none

/-- GreedySearch_Cuda::GreedySearch_Cuda allocates `next_tokens_` with
`params.batch_size` entries. -/
def GreedySearch_Cuda.next_tokens_count (p : SearchParams) : Nat :=
  p.batch_size

/-- Search_Cuda::Search_Cuda allocates `eos_meet_` with
`batch_beam_size` entries. -/
def Search_Cuda.eos_meet_count (p : SearchParams) : Nat :=
  p.BatchBeamSize

/-- Search_Cuda::CheckForEOS begins with
`assert(next_tokens_.size() == eos_meet_.size())`; for a GreedySearch
instance `next_tokens_` is the `batch_size`-entry buffer, so this is
the asserted condition. -/
def Search_Cuda.CheckForEOS_assert (p : SearchParams) : Bool :=
  GreedySearch_Cuda.next_tokens_count p == Search_Cuda.eos_meet_count p

/-- Concrete single-beam configuration: one batch row, prompt length 2,
capacity 3, vocabulary 4, eos id 3. -/
def exampleParamsGreedy : SearchParams :=
  { batch_size := 1
    num_beams := 1
    sequence_length := 2
    max_length := 3
    vocab_size := 4
    eos_token_id := 3
    pad_token_id := 0
    input_ids := fun n => Int.ofNat n }

/-- Concrete beam configuration: two batch rows, two beams each. -/
def exampleParamsBeam : SearchParams :=
  { batch_size := 2
    num_beams := 2
    sequence_length := 2
    max_length := 3
    vocab_size := 4
    eos_token_id := 3
    pad_token_id := 0
    input_ids := fun n => Int.ofNat n }

/-- Concrete configuration whose prompt length 1 is below a MinLength
bound of 3. -/
def exampleParamsShort : SearchParams :=
  { batch_size := 1
    num_beams := 1
    sequence_length := 1
    max_length := 3
    vocab_size := 4
    eos_token_id := 3
    pad_token_id := 0
    input_ids := fun n => Int.ofNat n }

/-- Concrete beam configuration already at `max_length`. -/
def exampleParamsDone : SearchParams :=
  { batch_size := 1
    num_beams := 2
    sequence_length := 3
    max_length := 3
    vocab_size := 4
    eos_token_id := 3
    pad_token_id := 0
    input_ids := fun n => Int.ofNat n }

/-- A freshly constructed search state on the short configuration. -/
def exampleSearchState : SearchState :=
  Search_Cuda.construct exampleParamsShort

/-- A concrete flat logits tensor: entry `n` holds the value `n`. -/
def exampleLogits : Nat → Int :=
  fun n => Int.ofNat n

/-- The identity per-row normalizer, standing in for the log-softmax
kernel in concrete evaluations. -/
def idRow : (Nat → Int) → Nat → Int :=
  fun g => g

/-- A concrete scorer state with nothing computed yet. -/
def exampleScorer : BeamScorerState :=
  { computedDone := false, stoppingCriterion := false }

/-- A concrete greedy state about to append token 7 to each row. -/
def exampleGreedyState : GreedyState :=
  { base := Search_Cuda.construct exampleParamsGreedy
    next_tokens := fun _ => 7 }

/-- The greedy state after its append step. -/
def exampleGreedyAfter : GreedyState :=
  (GreedySearch_Cuda.AppendNextTokensToSequences exampleGreedyState).getD exampleGreedyState

/-- A concrete beam state on the beam configuration. -/
def exampleBeamState : BeamState :=
  { base := Search_Cuda.construct exampleParamsBeam
    scorer := exampleScorer }

/-- The beam state after its append step. -/
def exampleBeamAfter : BeamState :=
  (BeamSearch_Cuda.AppendNextTokensToSequences exampleBeamState).getD exampleBeamState

/-- A concrete beam state whose sequence length equals `max_length`. -/
def exampleBeamDoneState : BeamState :=
  { base := Search_Cuda.construct exampleParamsDone
    scorer := exampleScorer }

/-- A concrete top-k kernel stand-in: returns the score buffer and zero
token/index buffers. -/
def exampleTopK : Nat → (Nat → Int) → (Nat → Int) × (Nat → Int) × (Nat → Int) :=
  fun _ scores => (scores, zeroBuffer, zeroBuffer)

/-- Decomposing a flat row-major index: row and offset are unique when
both offsets are below the stride. -/
theorem flatIndex_inj {m a b x y : Nat} (hx : x < m) (hy : y < m)
    (h : a * m + x = b * m + y) : a = b ∧ x = y := by
  have hm : 0 < m := Nat.lt_of_le_of_lt (Nat.zero_le x) hx
  have ha : (a * m + x) / m = a := by
    rw [Nat.mul_comm a m, Nat.mul_add_div hm, Nat.div_eq_of_lt hx, Nat.add_zero]
  have hb : (b * m + y) / m = b := by
    rw [Nat.mul_comm b m, Nat.mul_add_div hm, Nat.div_eq_of_lt hy, Nat.add_zero]
  have hab : a = b := by rw [← ha, ← hb, h]
  subst hab
  exact ⟨rfl, Nat.add_left_cancel h⟩

/-- Claim C6: immediately after construction of a Search instance the
pinned done flag is false, for every parameter record. -/
theorem claim_C6_done_flag_false_after_construction (p : SearchParams) :
    (Search_Cuda.construct p).done = false :=
  rfl

/-- Claim C8: constructing a BeamSearch instance hits the fatal
assertion exactly when `num_beams ≤ 1`; construction succeeds if and
only if `num_beams > 1`. -/
theorem claim_C8_beam_construction_iff_multiple_beams
    (p : SearchParams) (scorer0 : BeamScorerState) :
    (BeamSearch_Cuda.construct p scorer0).isSome = true ↔ 1 < p.num_beams := by
  unfold BeamSearch_Cuda.construct
  by_cases h : 1 < p.num_beams <;> simp [h]

/-- Claim C2: `BeamSearch_Cuda::IsDone` triggers the scorer's
stopping-criterion evaluation (the resulting state carries
`scorer.IsDone`) and returns true exactly when the scorer's previously
computed `IsDoneLater` result is true or the sequence length equals
`max_length`; in particular, it returns true whenever
`sequence_length = max_length` regardless of the scorer's state. -/
theorem claim_C2_beam_isdone_characterization (b : BeamState) :
    (BeamSearch_Cuda.IsDone b).1.scorer = b.scorer.IsDone
    ∧ ((BeamSearch_Cuda.IsDone b).2 = true ↔
        (b.scorer.IsDoneLater = true
          ∨ b.base.sequences.GetSequenceLength = b.base.params.max_length))
    ∧ (b.base.sequences.GetSequenceLength = b.base.params.max_length →
        (BeamSearch_Cuda.IsDone b).2 = true) := by
  refine ⟨rfl, ?_, ?_⟩
  · simp [BeamSearch_Cuda.IsDone]
  · intro h
    simp [BeamSearch_Cuda.IsDone, h]

/-- Claim C9: `BeamSearch_Cuda::NextTokensFromLogits` runs the
top-(2·num_beams) selection exactly when `num_beams ≤ 32`; with more
than 32 beams it reaches `assert(false)` and selects nothing. -/
theorem claim_C9_topk_requires_at_most_32_beams (b : BeamState) (beam_scores : Nat → Int)
    (topk : Nat → (Nat → Int) → (Nat → Int) × (Nat → Int) × (Nat → Int)) :
    (BeamSearch_Cuda.NextTokensFromLogits b beam_scores topk = none ↔
      32 < b.base.params.num_beams)
    ∧ (b.base.params.num_beams ≤ 32 →
        BeamSearch_Cuda.NextTokensFromLogits b beam_scores topk =
          some (topk (2 * b.base.params.num_beams)
            (LaunchAddProbsKernel b.base.params b.base.next_token_scores beam_scores))) := by
  unfold BeamSearch_Cuda.NextTokensFromLogits
  by_cases h : b.base.params.num_beams ≤ 32
  · rw [if_pos h]
    exact ⟨⟨fun hc => Option.noConfusion hc, fun hc => absurd hc (by omega)⟩,
      fun _ => rfl⟩
  · rw [if_neg h]
    exact ⟨⟨fun _ => by omega, fun _ => rfl⟩, fun hc => absurd hc h⟩

/-- Claim C10: with at least one batch element, the `CheckForEOS` size
assertion (`next_tokens_.size() == eos_meet_.size()`, with GreedySearch
buffer sizes `batch_size` and `batch_size * num_beams`) holds if and
only if `num_beams = 1`. -/
theorem claim_C10_checkforeos_assert_iff_single_beam (p : SearchParams)
    (hb : 1 ≤ p.batch_size) :
    Search_Cuda.CheckForEOS_assert p = true ↔ p.num_beams = 1 := by
  unfold Search_Cuda.CheckForEOS_assert GreedySearch_Cuda.next_tokens_count
    Search_Cuda.eos_meet_count SearchParams.BatchBeamSize
  rw [beq_iff_eq]
  constructor
  · intro h
    cases hn : p.num_beams with
    | zero =>
      rw [hn, Nat.mul_zero] at h
      omega
    | succ n =>
      rw [hn, Nat.mul_succ] at h
      have hz : p.batch_size * n = 0 := by omega
      rcases Nat.mul_eq_zero.mp hz with h0 | h0
      · omega
      · omega
  · intro h
    rw [h, Nat.mul_one]

/-- The MinLength row loop stores the lowest score at the eos entry of
every processed row. -/
theorem minLengthLoop_hit (p : SearchParams) (scores : Nat → Int) (n i : Nat)
    (hi : i < n) :
    minLengthLoop p scores n (i * p.vocab_size + p.eos_token_id) = scoreTypeLowest := by
  induction n with
  | zero => exact absurd hi (Nat.not_lt_zero i)
  | succ m ih =>
    unfold minLengthLoop writeAt
    by_cases h : i * p.vocab_size + p.eos_token_id = m * p.vocab_size + p.eos_token_id
    · rw [if_pos h]
    · rw [if_neg h]
      have him : i ≠ m := fun he => h (by rw [he])
      exact ih (by omega)

/-- The MinLength row loop leaves every index it never writes
unchanged. -/
theorem minLengthLoop_miss (p : SearchParams) (scores : Nat → Int) (n idx : Nat)
    (h : ∀ i, i < n → idx ≠ i * p.vocab_size + p.eos_token_id) :
    minLengthLoop p scores n idx = scores idx := by
  induction n with
  | zero => rfl
  | succ m ih =>
    unfold minLengthLoop writeAt
    rw [if_neg (h m (Nat.lt_succ_self m))]
    exact ih (fun i hi => h i (Nat.lt_succ_of_lt hi))

/-- Claim C3: when the sequence length is below `min_length`, the
MinLength processor stores the most-negative representable score at the
`eos_token_id` entry of every row of the score matrix and leaves every
other entry unchanged; when the length is at least `min_length`, it
leaves the state entirely unchanged. -/
theorem claim_C3_minlength_masks_eos_only (s : SearchState) (min_length : Nat)
    (heos : s.params.eos_token_id < s.params.vocab_size) :
    (s.sequences.GetSequenceLength < min_length →
      (∀ i, i < s.params.BatchBeamSize →
        (Processors_Cuda.MinLength s min_length).next_token_scores
            (i * s.params.vocab_size + s.params.eos_token_id) = scoreTypeLowest)
      ∧ (∀ i v, i < s.params.BatchBeamSize → v < s.params.vocab_size →
          v ≠ s.params.eos_token_id →
          (Processors_Cuda.MinLength s min_length).next_token_scores
              (i * s.params.vocab_size + v)
            = s.next_token_scores (i * s.params.vocab_size + v)))
    ∧ (min_length ≤ s.sequences.GetSequenceLength →
        Processors_Cuda.MinLength s min_length = s) := by
  constructor
  · intro hlt
    have hcond : ¬ s.sequences.GetSequenceLength ≥ min_length := by omega
    constructor
    · intro i hi
      show (if s.sequences.GetSequenceLength ≥ min_length then s
            else { s with next_token_scores :=
              minLengthLoop s.params s.next_token_scores s.params.BatchBeamSize }).next_token_scores
          (i * s.params.vocab_size + s.params.eos_token_id) = scoreTypeLowest
      rw [if_neg hcond]
      exact minLengthLoop_hit s.params s.next_token_scores s.params.BatchBeamSize i hi
    · intro i v hi hv hne
      show (if s.sequences.GetSequenceLength ≥ min_length then s
            else { s with next_token_scores :=
              minLengthLoop s.params s.next_token_scores s.params.BatchBeamSize }).next_token_scores
          (i * s.params.vocab_size + v)
          = s.next_token_scores (i * s.params.vocab_size + v)
      rw [if_neg hcond]
      refine minLengthLoop_miss s.params s.next_token_scores s.params.BatchBeamSize _ ?_
      intro i2 hi2 heq
      rcases flatIndex_inj hv heos heq with ⟨_, hveq⟩
      exact hne hveq
  · intro hge
    show (if s.sequences.GetSequenceLength ≥ min_length then s
          else { s with next_token_scores :=
            minLengthLoop s.params s.next_token_scores s.params.BatchBeamSize }) = s
    rw [if_pos hge]

/-- The append loop stores row `i`'s token at flat position
`i * max_length + current_length` for every processed row. -/
theorem appendLoop_hit (maxLen : Nat) (next_tokens : Nat → Int) (cur : Nat)
    (buf : Nat → Int) (n i : Nat) (hi : i < n) (hmax : 0 < maxLen) :
    appendLoop maxLen next_tokens cur buf n (i * maxLen + cur) = next_tokens i := by
  induction n with
  | zero => exact absurd hi (Nat.not_lt_zero i)
  | succ m ih =>
    unfold appendLoop writeAt
    by_cases h : i * maxLen + cur = m * maxLen + cur
    · rw [if_pos h]
      have hrow : i * maxLen = m * maxLen := by omega
      have him : i = m := Nat.eq_of_mul_eq_mul_right hmax hrow
      rw [him]
    · rw [if_neg h]
      have him : i ≠ m := fun he => h (by rw [he])
      exact ih (by omega)

/-- Claim C1: for a successful decode-step append of either search
variant (greedy host append, beam device append), the sequence length
afterwards is the length before plus exactly 1, and it never exceeds
`max_length`. -/
theorem claim_C1_append_step_length :
    (∀ (g g' : GreedyState),
        GreedySearch_Cuda.AppendNextTokensToSequences g = some g' →
        g'.base.sequences.current_length = g.base.sequences.current_length + 1
        ∧ g'.base.sequences.current_length ≤ g'.base.sequences.max_length)
    ∧ (∀ (b b' : BeamState),
        BeamSearch_Cuda.AppendNextTokensToSequences b = some b' →
        b'.base.sequences.current_length = b.base.sequences.current_length + 1
        ∧ b'.base.sequences.current_length ≤ b'.base.sequences.max_length) := by
  constructor
  · intro g g' h
    by_cases hc : g.base.sequences.current_length < g.base.sequences.max_length
    · simp only [GreedySearch_Cuda.AppendNextTokensToSequences,
        Sequences.AppendNextTokenToSequences, if_pos hc] at h
      rcases h with ⟨rfl⟩
      refine ⟨rfl, ?_⟩
      simpa using hc
    · simp only [GreedySearch_Cuda.AppendNextTokensToSequences,
        Sequences.AppendNextTokenToSequences, if_neg hc] at h
      exact Option.noConfusion h
  · intro b b' h
    by_cases hc : b.base.sequences.current_length < b.base.sequences.max_length
    · simp only [BeamSearch_Cuda.AppendNextTokensToSequences,
        Sequences.AfterDeviceAppendedNextToken, if_pos hc] at h
      rcases h with ⟨rfl⟩
      refine ⟨rfl, ?_⟩
      simpa using hc
    · simp only [BeamSearch_Cuda.AppendNextTokensToSequences,
        Sequences.AfterDeviceAppendedNextToken, if_neg hc] at h
      exact Option.noConfusion h

/-- Claim C5: a successful `GreedySearch_Cuda::AppendNextTokensToSequences`
appends the selected token of every row at the previous current length,
increments the length by 1, sets the done flag exactly when the
resulting length equals `max_length`, and leaves the flag untouched
otherwise. -/
theorem claim_C5_greedy_append_tokens_and_done (g g' : GreedyState)
    (h : GreedySearch_Cuda.AppendNextTokensToSequences g = some g') :
    (∀ i, i < g.base.sequences.batch_beam_size →
        g'.base.sequences.buffer
            (i * g.base.sequences.max_length + g.base.sequences.current_length)
          = g.next_tokens i)
    ∧ g'.base.sequences.current_length = g.base.sequences.current_length + 1
    ∧ (g'.base.sequences.current_length = g.base.params.max_length →
        g'.base.done = true)
    ∧ (g'.base.sequences.current_length ≠ g.base.params.max_length →
        g'.base.done = g.base.done) := by
  by_cases hc : g.base.sequences.current_length < g.base.sequences.max_length
  · simp only [GreedySearch_Cuda.AppendNextTokensToSequences,
      Sequences.AppendNextTokenToSequences, if_pos hc] at h
    rcases h with ⟨rfl⟩
    have hmax : 0 < g.base.sequences.max_length := by omega
    refine ⟨?_, rfl, ?_, ?_⟩
    · intro i hi
      exact appendLoop_hit g.base.sequences.max_length g.next_tokens
        g.base.sequences.current_length g.base.sequences.buffer
        g.base.sequences.batch_beam_size i hi hmax
    · intro hmx
      simp only [Sequences.GetSequenceLength] at *
      rw [if_pos hmx]
    · intro hmx
      simp only [Sequences.GetSequenceLength] at *
      rw [if_neg hmx]
  · simp only [GreedySearch_Cuda.AppendNextTokensToSequences,
      Sequences.AppendNextTokenToSequences, if_neg hc] at h
    exact Option.noConfusion h

/-- The SetLogits row loop leaves each processed row holding the
normalized last-position slice of its logits. -/
theorem setLogitsLoop_in_row (p : SearchParams) (f : (Nat → Int) → (Nat → Int))
    (input_length : Nat) (logits scores : Nat → Int) (n i v : Nat)
    (hi : i < n) (hv : v < p.vocab_size) :
    setLogitsLoop p f input_length logits scores n (i * p.vocab_size + v)
      = f (lastSlice p input_length logits i) v := by
  induction n with
  | zero => exact absurd hi (Nat.not_lt_zero i)
  | succ m ih =>
    simp only [setLogitsLoop]
    by_cases him : i = m
    · subst him
      rw [if_pos ⟨Nat.le_add_right _ _, by omega⟩]
      congr 1
      omega
    · have hcond : ¬ (m * p.vocab_size ≤ i * p.vocab_size + v
          ∧ i * p.vocab_size + v < m * p.vocab_size + p.vocab_size) := by
        intro hc
        have hup : i * p.vocab_size + p.vocab_size ≤ m * p.vocab_size := by
          have h1 : (i + 1) * p.vocab_size ≤ m * p.vocab_size :=
            Nat.mul_le_mul_right _ (by omega)
          calc i * p.vocab_size + p.vocab_size
              = (i + 1) * p.vocab_size := by ring
            _ ≤ m * p.vocab_size := h1
        omega
      rw [if_neg hcond]
      exact ih (by omega)

/-- Claim C4: for a logits tensor of shape
`[batch*beams, input_length, vocab_size]` with `input_length ≥ 1` and a
per-row normalizer `f` depending only on the first `vocab_size` entries
of its row, `SetLogits` leaves row `i` of the score buffer holding `f`
applied to `logits[i, input_length - 1, :]`; two logits tensors that
agree on those last-position slices yield identical scores, so no other
position influences the result. -/
theorem claim_C4_setlogits_uses_last_position (s : SearchState)
    (f : (Nat → Int) → (Nat → Int)) (input_length : Nat)
    (logits logits2 : Nat → Int)
    (_hlen : 1 ≤ input_length)
    (hf : ∀ g h : Nat → Int, (∀ u, u < s.params.vocab_size → g u = h u) →
        ∀ v, v < s.params.vocab_size → f g v = f h v)
    (hagree : ∀ i u, i < s.params.BatchBeamSize → u < s.params.vocab_size →
        logits ((i * input_length + (input_length - 1)) * s.params.vocab_size + u)
          = logits2 ((i * input_length + (input_length - 1)) * s.params.vocab_size + u))
    (i v : Nat) (hi : i < s.params.BatchBeamSize) (hv : v < s.params.vocab_size) :
    ((Search_Cuda.SetLogits s f input_length logits).next_token_scores
        (i * s.params.vocab_size + v)
      = f (fun u =>
          logits ((i * input_length + (input_length - 1)) * s.params.vocab_size + u)) v)
    ∧ ((Search_Cuda.SetLogits s f input_length logits).next_token_scores
        (i * s.params.vocab_size + v)
      = (Search_Cuda.SetLogits s f input_length logits2).next_token_scores
          (i * s.params.vocab_size + v)) := by
  have h1 := setLogitsLoop_in_row s.params f input_length logits
    s.next_token_scores s.params.BatchBeamSize i v hi hv
  have h2 := setLogitsLoop_in_row s.params f input_length logits2
    s.next_token_scores s.params.BatchBeamSize i v hi hv
  have hsl : ∀ (l : Nat → Int) (u : Nat),
      lastSlice s.params input_length l i u
        = l ((i * input_length + (input_length - 1)) * s.params.vocab_size + u) := by
    intro l u
    unfold lastSlice
    congr 1
    ring
  constructor
  · refine h1.trans ?_
    congr 1
    funext u
    exact hsl logits u
  · refine h1.trans (Eq.trans ?_ h2.symm)
    refine hf _ _ ?_ v hv
    intro u hu
    rw [hsl logits u, hsl logits2 u]
    exact hagree i u hi hu

/-- The prompt-expansion inner loop stores the prompt token `j` of
batch `b` in the row of beam `k` for every `j` below the bound. -/
theorem setInputLoopJ_hit (p : SearchParams) (buf : Nat → Int) (b k n j : Nat)
    (hj : j < n) :
    setInputLoopJ p buf b k n ((b * p.num_beams + k) * p.max_length + j)
      = p.input_ids (b * p.sequence_length + j) := by
  induction n with
  | zero => exact absurd hj (Nat.not_lt_zero j)
  | succ m ih =>
    simp only [setInputLoopJ, writeAt]
    by_cases hjm : j = m
    · subst hjm
      rw [if_pos rfl]
    · rw [if_neg (by omega)]
      exact ih (by omega)

/-- The prompt-expansion inner loop leaves untouched every index it
never writes. -/
theorem setInputLoopJ_miss (p : SearchParams) (buf : Nat → Int) (b k n idx : Nat)
    (h : ∀ j, j < n → idx ≠ (b * p.num_beams + k) * p.max_length + j) :
    setInputLoopJ p buf b k n idx = buf idx := by
  induction n with
  | zero => rfl
  | succ m ih =>
    simp only [setInputLoopJ, writeAt]
    rw [if_neg (h m (Nat.lt_succ_self m))]
    exact ih (fun j hj => h j (Nat.lt_succ_of_lt hj))

/-- The prompt-expansion beam loop stores the prompt token `j` of batch
`b` in the row of every processed beam `k`. -/
theorem setInputLoopK_hit (p : SearchParams) (buf : Nat → Int) (b n k j : Nat)
    (hk : k < n) (hj : j < p.sequence_length)
    (hseq : p.sequence_length ≤ p.max_length) :
    setInputLoopK p buf b n ((b * p.num_beams + k) * p.max_length + j)
      = p.input_ids (b * p.sequence_length + j) := by
  induction n with
  | zero => exact absurd hk (Nat.not_lt_zero k)
  | succ m ih =>
    simp only [setInputLoopK]
    by_cases hkm : k = m
    · subst hkm
      exact setInputLoopJ_hit p _ b k p.sequence_length j hj
    · rw [setInputLoopJ_miss]
      · exact ih (by omega)
      · intro j2 hj2 heq
        have hjm : j < p.max_length := by omega
        have hj2m : j2 < p.max_length := by omega
        rcases flatIndex_inj hjm hj2m heq with ⟨hrow, _⟩
        omega

/-- The prompt-expansion beam loop leaves untouched every index outside
the rows of its processed beams. -/
theorem setInputLoopK_miss (p : SearchParams) (buf : Nat → Int) (b n idx : Nat)
    (h : ∀ k j, k < n → j < p.sequence_length →
        idx ≠ (b * p.num_beams + k) * p.max_length + j) :
    setInputLoopK p buf b n idx = buf idx := by
  induction n with
  | zero => rfl
  | succ m ih =>
    simp only [setInputLoopK]
    rw [setInputLoopJ_miss]
    · exact ih (fun k j hk hj => h k j (Nat.lt_succ_of_lt hk) hj)
    · intro j hj
      exact h m j (Nat.lt_succ_self m) hj

/-- The prompt-expansion batch loop stores the prompt token `j` of
every processed batch `b` in the row of each of its beams `k`. -/
theorem setInputLoopB_hit (p : SearchParams) (buf : Nat → Int) (n b k j : Nat)
    (hb : b < n) (hk : k < p.num_beams) (hj : j < p.sequence_length)
    (hseq : p.sequence_length ≤ p.max_length) :
    setInputLoopB p buf n ((b * p.num_beams + k) * p.max_length + j)
      = p.input_ids (b * p.sequence_length + j) := by
  induction n with
  | zero => exact absurd hb (Nat.not_lt_zero b)
  | succ m ih =>
    simp only [setInputLoopB]
    by_cases hbm : b = m
    · subst hbm
      exact setInputLoopK_hit p _ b p.num_beams k j hk hj hseq
    · rw [setInputLoopK_miss]
      · exact ih (by omega)
      · intro k2 j2 hk2 hj2 heq
        have hjm : j < p.max_length := by omega
        have hj2m : j2 < p.max_length := by omega
        rcases flatIndex_inj hjm hj2m heq with ⟨hrow, _⟩
        rcases flatIndex_inj hk hk2 hrow with ⟨hbb, _⟩
        exact hbm hbb

/-- Claim C7: after construction, for every batch index `b`, beam index
`k` and prompt position `j`, row `b * num_beams + k` of the sequence
buffer holds the prompt token `input_ids[b * sequence_length + j]` at
position `j` — each batch element's prompt replicated across its beam
rows. -/
theorem claim_C7_prompt_replicated_across_beams (p : SearchParams) (b k j : Nat)
    (hb : b < p.batch_size) (hk : k < p.num_beams) (hj : j < p.sequence_length)
    (hseq : p.sequence_length ≤ p.max_length) :
    (Search_Cuda.construct p).sequences.buffer
        ((b * p.num_beams + k) * p.max_length + j)
      = p.input_ids (b * p.sequence_length + j) :=
  setInputLoopB_hit p zeroBuffer p.batch_size b k j hb hk hj hseq

/-- Witness for claim C1: both concrete append steps succeed, increment
the length from 2 to 3 and stay within the capacity 3. -/
theorem claim_C1_append_step_length_witness :
    exampleGreedyAfter.base.sequences.current_length
        = exampleGreedyState.base.sequences.current_length + 1
    ∧ exampleGreedyAfter.base.sequences.current_length
        ≤ exampleGreedyAfter.base.sequences.max_length
    ∧ exampleBeamAfter.base.sequences.current_length
        = exampleBeamState.base.sequences.current_length + 1
    ∧ exampleBeamAfter.base.sequences.current_length
        ≤ exampleBeamAfter.base.sequences.max_length :=
  ⟨(claim_C1_append_step_length.1 exampleGreedyState exampleGreedyAfter rfl).1,
   (claim_C1_append_step_length.1 exampleGreedyState exampleGreedyAfter rfl).2,
   (claim_C1_append_step_length.2 exampleBeamState exampleBeamAfter rfl).1,
   (claim_C1_append_step_length.2 exampleBeamState exampleBeamAfter rfl).2⟩

/-- Witness for claim C2: at `sequence_length = max_length = 3` the
concrete beam search reports done even though the scorer has computed
nothing. -/
theorem claim_C2_beam_isdone_witness :
    (BeamSearch_Cuda.IsDone exampleBeamDoneState).2 = true :=
  (claim_C2_beam_isdone_characterization exampleBeamDoneState).2.2 rfl

/-- Witness for claim C3: on the concrete length-1 state, MinLength 3
masks the eos entry of row 0 and keeps entry 1, while MinLength 1
changes nothing. -/
theorem claim_C3_minlength_witness :
    (Processors_Cuda.MinLength exampleSearchState 3).next_token_scores
        (0 * exampleSearchState.params.vocab_size + exampleSearchState.params.eos_token_id)
      = scoreTypeLowest
    ∧ (Processors_Cuda.MinLength exampleSearchState 3).next_token_scores
        (0 * exampleSearchState.params.vocab_size + 1)
      = exampleSearchState.next_token_scores (0 * exampleSearchState.params.vocab_size + 1)
    ∧ Processors_Cuda.MinLength exampleSearchState 1 = exampleSearchState :=
  ⟨((claim_C3_minlength_masks_eos_only exampleSearchState 3 (by decide)).1
      (by decide)).1 0 (by decide),
   ((claim_C3_minlength_masks_eos_only exampleSearchState 3 (by decide)).1
      (by decide)).2 0 1 (by decide) (by decide) (by decide),
   (claim_C3_minlength_masks_eos_only exampleSearchState 1 (by decide)).2 (by decide)⟩

/-- Witness for claim C4: with the identity normalizer and logits
holding their own flat index, row 0 entry 1 of the scores equals logits
entry `(0*2 + 1)*4 + 1 = 5`. -/
theorem claim_C4_setlogits_witness :
    (Search_Cuda.SetLogits exampleSearchState idRow 2 exampleLogits).next_token_scores
        (0 * exampleSearchState.params.vocab_size + 1) = 5 :=
  ((claim_C4_setlogits_uses_last_position exampleSearchState idRow 2
      exampleLogits exampleLogits (by decide)
      (fun g h hg v hv => hg v hv)
      (fun i u hi hu => rfl)
      0 1 (by decide) (by decide)).1).trans rfl

/-- Witness for claim C5: the concrete greedy append writes token 7 at
position 2 of row 0, raises the length to the capacity 3 and therefore
sets the done flag. -/
theorem claim_C5_greedy_append_witness :
    exampleGreedyAfter.base.sequences.buffer
        (0 * exampleGreedyState.base.sequences.max_length
          + exampleGreedyState.base.sequences.current_length)
      = exampleGreedyState.next_tokens 0
    ∧ exampleGreedyAfter.base.sequences.current_length
        = exampleGreedyState.base.sequences.current_length + 1
    ∧ exampleGreedyAfter.base.done = true :=
  ⟨(claim_C5_greedy_append_tokens_and_done exampleGreedyState exampleGreedyAfter rfl).1
      0 (by decide),
   (claim_C5_greedy_append_tokens_and_done exampleGreedyState exampleGreedyAfter rfl).2.1,
   (claim_C5_greedy_append_tokens_and_done exampleGreedyState exampleGreedyAfter rfl).2.2.1
      rfl⟩

/-- Witness for claim C7: in the two-batch two-beam configuration, row
`1*2 + 1 = 3` holds prompt token `input_ids[1*2 + 1] = 3` at position 1. -/
theorem claim_C7_prompt_replication_witness :
    (Search_Cuda.construct exampleParamsBeam).sequences.buffer
        ((1 * exampleParamsBeam.num_beams + 1) * exampleParamsBeam.max_length + 1)
      = exampleParamsBeam.input_ids (1 * exampleParamsBeam.sequence_length + 1) :=
  claim_C7_prompt_replicated_across_beams exampleParamsBeam 1 1 1
    (by decide) (by decide) (by decide) (by decide)

/-- Witness for claim C8: the concrete two-beam construction succeeds. -/
theorem claim_C8_beam_construction_witness :
    (BeamSearch_Cuda.construct exampleParamsBeam exampleScorer).isSome = true :=
  (claim_C8_beam_construction_iff_multiple_beams exampleParamsBeam exampleScorer).mpr
    (by decide)

/-- Witness for claim C9: with 2 beams the concrete selection runs the
top-k kernel with `k = 2 * num_beams = 4`. -/
theorem claim_C9_topk_witness :
    BeamSearch_Cuda.NextTokensFromLogits exampleBeamState zeroBuffer exampleTopK
      = some (exampleTopK (2 * exampleBeamState.base.params.num_beams)
          (LaunchAddProbsKernel exampleBeamState.base.params
            exampleBeamState.base.next_token_scores zeroBuffer)) :=
  (claim_C9_topk_requires_at_most_32_beams exampleBeamState zeroBuffer exampleTopK).2
    (by decide)

/-- Witness for claim C10: the single-beam configuration satisfies the
CheckForEOS size assertion. -/
theorem claim_C10_checkforeos_witness :
    Search_Cuda.CheckForEOS_assert exampleParamsGreedy = true :=
  (claim_C10_checkforeos_assert_iff_single_beam exampleParamsGreedy (by decide)).mpr
    (by decide)

end Generators
